import Mathlib

/-!
Shallow embedding of the timing-based Morse decoder of
src/detector.py (function main_receiver, plus decode_morse and the
MORSE_TO_TEXT table).

Timestamps and durations are modelled as rationals (seconds), the
symbol buffer and the decoded message as lists of characters, exactly
as the Python code manipulates strings of '.' and '-' and of decoded
characters.  The state machine of lines 156-200, the silence watchdog
of lines 179-186, the reset command of lines 301-305 and the final
flush of lines 314-319 are each embedded as an explicit state-passing
function on a DecoderState record.
-/

/-- Decoding threshold for dot versus dash, seconds
(src/detector.py line 14, DOT_DASH_THRESHOLD_S = 0.400). -/
def DOT_DASH_THRESHOLD_S : ℚ := 400 / 1000

/-- Decoding threshold for a letter gap, seconds
(src/detector.py line 15, LETTER_GAP_THRESHOLD_S = 0.500). -/
def LETTER_GAP_THRESHOLD_S : ℚ := 500 / 1000

/-- Decoding threshold for a word gap, seconds
(src/detector.py line 16, WORD_GAP_THRESHOLD_S = 1.000). -/
def WORD_GAP_THRESHOLD_S : ℚ := 1000 / 1000

/-- Dot or dash element produced from one ON pulse. -/
inductive MorseElement
  | Dot
  | Dash
  deriving DecidableEq

/-- Classification of an OFF interval. -/
inductive GapKind
  | NoGap
  | LetterGap
  | WordGap
  deriving DecidableEq

/-- Classification of an on-duration, mirroring the branch of
src/detector.py lines 192-197: durations strictly below
DOT_DASH_THRESHOLD_S give a dot, all others a dash. -/
def classifyOnDuration (d : ℚ) : MorseElement :=
  if d < DOT_DASH_THRESHOLD_S then MorseElement.Dot else MorseElement.Dash

/-- Classification of an off-duration, mirroring the branch ladder of
src/detector.py lines 162-174: word gap first (inclusive boundary),
then letter gap (inclusive boundary), otherwise no gap. -/
def classifyOffDuration (d : ℚ) : GapKind :=
  if WORD_GAP_THRESHOLD_S ≤ d then GapKind.WordGap
  else if LETTER_GAP_THRESHOLD_S ≤ d then GapKind.LetterGap
  else GapKind.NoGap

/-- Character appended to the symbol buffer for an element
(the Python code appends the literal characters, lines 193 and 196). -/
def elementChar : MorseElement → Char
  | MorseElement.Dot => '.'
  | MorseElement.Dash => '-'

/-- Morse code lookup table of src/detector.py lines 43-51, with the
pattern keys as lists of characters. -/
def MORSE_TO_TEXT : List (List Char × Char) :=
  [ (['.', '-'], 'A'), (['-', '.', '.', '.'], 'B'), (['-', '.', '-', '.'], 'C'),
    (['-', '.', '.'], 'D'), (['.'], 'E'), (['.', '.', '-', '.'], 'F'),
    (['-', '-', '.'], 'G'), (['.', '.', '.', '.'], 'H'), (['.', '.'], 'I'),
    (['.', '-', '-', '-'], 'J'), (['-', '.', '-'], 'K'), (['.', '-', '.', '.'], 'L'),
    (['-', '-'], 'M'), (['-', '.'], 'N'), (['-', '-', '-'], 'O'),
    (['.', '-', '-', '.'], 'P'), (['-', '-', '.', '-'], 'Q'), (['.', '-', '.'], 'R'),
    (['.', '.', '.'], 'S'), (['-'], 'T'), (['.', '.', '-'], 'U'),
    (['.', '.', '.', '-'], 'V'), (['.', '-', '-'], 'W'), (['-', '.', '.', '-'], 'X'),
    (['-', '.', '-', '-'], 'Y'), (['-', '-', '.', '.'], 'Z'),
    (['.', '-', '-', '-', '-'], '1'), (['.', '.', '-', '-', '-'], '2'),
    (['.', '.', '.', '-', '-'], '3'), (['.', '.', '.', '.', '-'], '4'),
    (['.', '.', '.', '.', '.'], '5'), (['-', '.', '.', '.', '.'], '6'),
    (['-', '-', '.', '.', '.'], '7'), (['-', '-', '-', '.', '.'], '8'),
    (['-', '-', '-', '-', '.'], '9'), (['-', '-', '-', '-', '-'], '0') ]

/-- First-match association lookup, the semantics of Python's
dict.get over the (duplicate-free) literal dict. -/
def lookupMorse : List (List Char × Char) → List Char → Option Char
  | [], _ => none
  | (k, v) :: rest, p => if k = p then some v else lookupMorse rest p

/-- Embeds decode_morse of src/detector.py lines 82-84:
morse_table.get(morse_code, number-sign) — an unmatched or empty
pattern yields the placeholder character instead of failing. -/
def decode_morse (morse_code : List Char) : Char :=
  (lookupMorse MORSE_TO_TEXT morse_code).getD '#'

/-- Mutable state of the decoder loop of main_receiver:
led_state (0 = signal off, 1 = signal on, lines 105 and 158-200),
current_morse_symbol (line 106), decoded_message (line 107) and
last_state_change_time (line 110). -/
structure DecoderState where
  led_state : Nat
  current_morse_symbol : List Char
  decoded_message : List Char
  last_state_change_time : ℚ
  deriving DecidableEq

/-- Python decoded_message.endswith(a space): true iff the last
character exists and is a space (false on the empty message). -/
def endsWithSpace (msg : List Char) : Bool :=
  msg.getLast? == some ' '

/-- Flush of the symbol buffer shared by the word-gap branch
(lines 163-165), the letter-gap branch (lines 170-173), and the
watchdog (lines 181-183): if the buffer is non-empty, decode it,
append the character to the message and clear the buffer. -/
def risingFlush (s : DecoderState) : DecoderState :=
  if s.current_morse_symbol ≠ [] then
    { s with
      decoded_message := s.decoded_message ++ [decode_morse s.current_morse_symbol],
      current_morse_symbol := [] }
  else s

/-- Edge-triggered part of the state machine of src/detector.py
lines 158-200 for one sample (timestamp, isActive).
In state 0 a rising edge classifies the off-duration (word gap:
flush, then append a space unless the message already ends with one;
letter gap: flush; otherwise nothing) and moves to state 1 stamping
the transition time; in state 1 a falling edge appends a dot for an
on-duration strictly below DOT_DASH_THRESHOLD_S and a dash otherwise,
and moves to state 0 stamping the transition time.  Same-level
samples leave the state unchanged (the watchdog of lines 179-186 is
embedded separately as watchdogTick). -/
def processSample (timestamp : ℚ) (isActive : Bool) (s : DecoderState) : DecoderState :=
  if s.led_state = 0 then
    if isActive then
      let off_duration := timestamp - s.last_state_change_time
      let s1 :=
        if WORD_GAP_THRESHOLD_S ≤ off_duration then
          let s2 := risingFlush s
          if endsWithSpace s2.decoded_message then s2
          else { s2 with decoded_message := s2.decoded_message ++ [' '] }
        else if LETTER_GAP_THRESHOLD_S ≤ off_duration then
          risingFlush s
        else s
      { s1 with led_state := 1, last_state_change_time := timestamp }
    else s
  else if s.led_state = 1 then
    if isActive then s
    else
      let on_duration := timestamp - s.last_state_change_time
      let s1 :=
        if on_duration < DOT_DASH_THRESHOLD_S then
          { s with current_morse_symbol := s.current_morse_symbol ++ ['.'] }
        else
          { s with current_morse_symbol := s.current_morse_symbol ++ ['-'] }
      { s1 with led_state := 0, last_state_change_time := timestamp }
  else s

/-- Silence watchdog, the body of src/detector.py lines 180-185,
reached only while led_state = 0: if the elapsed silence strictly
exceeds WORD_GAP_THRESHOLD_S and the message does not already end
with a space, flush a non-empty buffer and append one space.  It
never touches last_state_change_time. -/
def watchdogTick (now : ℚ) (s : DecoderState) : DecoderState :=
  if s.led_state = 0 then
    if WORD_GAP_THRESHOLD_S < now - s.last_state_change_time
        ∧ ¬ endsWithSpace s.decoded_message then
      let s1 := risingFlush s
      { s1 with decoded_message := s1.decoded_message ++ [' '] }
    else s
  else s

/-- Reset command (key c), src/detector.py lines 301-305: clears
both buffers and restamps last_state_change_time with the current
time; led_state is not assigned. -/
def resetDecoder (now : ℚ) (s : DecoderState) : DecoderState :=
  { s with
    current_morse_symbol := [],
    decoded_message := [],
    last_state_change_time := now }

/-- Final decode check of src/detector.py lines 314-316: a non-empty
symbol buffer is decoded and appended to the message.  The Python
code does not clear the buffer here. -/
def finalizeDecoder (s : DecoderState) : DecoderState :=
  if s.current_morse_symbol ≠ [] then
    { s with
      decoded_message := s.decoded_message ++ [decode_morse s.current_morse_symbol] }
  else s

/-- Python str.strip() on the decoded message (line 319): removes
leading and trailing spaces (the only whitespace the message can
contain). -/
def stripSpaces (msg : List Char) : List Char :=
  ((msg.dropWhile (· == ' ')).reverse.dropWhile (· == ' ')).reverse

/-- Terminal result of the program, line 319:
the finalized message with surrounding whitespace stripped. -/
def finalResult (s : DecoderState) : List Char :=
  stripSpaces (finalizeDecoder s).decoded_message

/-- One externally observable action driving the decoder: a signal
sample, a watchdog tick, or a reset command. -/
inductive DecoderEvent
  | sample (timestamp : ℚ) (isActive : Bool)
  | tick (now : ℚ)
  | reset (now : ℚ)

/-- Dispatch of one event to the embedded operations. -/
def stepEvent (e : DecoderEvent) (s : DecoderState) : DecoderState :=
  match e with
  | DecoderEvent.sample t a => processSample t a s
  | DecoderEvent.tick now => watchdogTick now s
  | DecoderEvent.reset now => resetDecoder now s

/-- Initial state of main_receiver, lines 105-110: led_state 0,
empty buffers, start time (taken as 0). -/
def initialState : DecoderState :=
  { led_state := 0,
    current_morse_symbol := [],
    decoded_message := [],
    last_state_change_time := 0 }

/-- Run of the decoder on a whole event sequence from the start. -/
def runEvents (events : List DecoderEvent) : DecoderState :=
  events.foldl (fun s e => stepEvent e s) initialState

/-- True iff two adjacent characters of the message are both spaces. -/
def hasDoubleSpace : List Char → Bool
  | [] => false
  | [_] => false
  | a :: b :: rest => (a == ' ' && b == ' ') || hasDoubleSpace (b :: rest)

/-- Characters the decoded message may contain: uppercase letters,
digits, the placeholder, or a space. -/
def validChar (c : Char) : Bool :=
  ('A' ≤ c && c ≤ 'Z') || ('0' ≤ c && c ≤ '9') || c == '#' || c == ' '

/-- Invariant of the decoded message maintained by every operation:
no two consecutive spaces and only letters, digits, the placeholder or
spaces. -/
def messageInv (s : DecoderState) : Prop :=
  hasDoubleSpace s.decoded_message = false ∧ s.decoded_message.all validChar = true


theorem lookupMorse_mem {l : List (List Char × Char)} {p : List Char} {c : Char}
    (h : lookupMorse l p = some c) : (p, c) ∈ l := by
  induction l with
  | nil => simp [lookupMorse] at h
  | cons kv rest ih =>
    cases kv with
    | mk k v =>
      simp only [lookupMorse] at h
      by_cases hk : k = p
      · rw [if_pos hk] at h
        subst hk
        cases h
        exact List.mem_cons_self _ _
      · rw [if_neg hk] at h
        exact List.mem_cons_of_mem _ (ih h)

theorem lookupMorse_eq_none {l : List (List Char × Char)} {p : List Char}
    (h : ∀ kv ∈ l, kv.1 ≠ p) : lookupMorse l p = none := by
  induction l with
  | nil => rfl
  | cons kv rest ih =>
    cases kv with
    | mk k v =>
      simp only [lookupMorse]
      rw [if_neg (h (k, v) (List.mem_cons_self _ _))]
      exact ih (fun kv hkv => h kv (List.mem_cons_of_mem _ hkv))

theorem decode_morse_ne_space (p : List Char) : decode_morse p ≠ ' ' := by
  unfold decode_morse
  cases h : lookupMorse MORSE_TO_TEXT p with
  | none => simp
  | some c =>
    have hm := lookupMorse_mem h
    have hv : ∀ kv ∈ MORSE_TO_TEXT, kv.2 ≠ ' ' := by decide
    simpa using hv _ hm

theorem decode_morse_validChar (p : List Char) : validChar (decode_morse p) = true := by
  unfold decode_morse
  cases h : lookupMorse MORSE_TO_TEXT p with
  | none => decide
  | some c =>
    have hm := lookupMorse_mem h
    have hv : ∀ kv ∈ MORSE_TO_TEXT, validChar kv.2 = true := by decide
    simpa using hv _ hm

theorem hasDoubleSpace_concat (m : List Char) (c : Char) :
    hasDoubleSpace (m ++ [c]) =
      (hasDoubleSpace m || (m.getLast? == some ' ' && c == ' ')) := by
  induction m with
  | nil => simp [hasDoubleSpace]
  | cons a t ih =>
    cases t with
    | nil => simp [hasDoubleSpace]
    | cons b r =>
      simp only [List.cons_append, hasDoubleSpace, List.append_eq] at *
      rw [ih]
      simp [List.getLast?_cons_cons, Bool.or_assoc]

theorem hasDoubleSpace_append_space (m : List Char) :
    hasDoubleSpace (m ++ [' ']) = (hasDoubleSpace m || endsWithSpace m) := by
  rw [hasDoubleSpace_concat]
  simp [endsWithSpace]

theorem hasDoubleSpace_append_decode (m : List Char) (p : List Char)
    (h : hasDoubleSpace m = false) :
    hasDoubleSpace (m ++ [decode_morse p]) = false := by
  rw [hasDoubleSpace_concat, h]
  simp [decode_morse_ne_space p]

theorem risingFlush_symbol (s : DecoderState) :
    (risingFlush s).current_morse_symbol = [] := by
  unfold risingFlush
  split
  · rfl
  · next h => simpa using h

theorem risingFlush_led_state (s : DecoderState) :
    (risingFlush s).led_state = s.led_state := by
  unfold risingFlush
  split <;> rfl

theorem risingFlush_message (s : DecoderState) :
    (risingFlush s).decoded_message =
      (if s.current_morse_symbol ≠ [] then
        s.decoded_message ++ [decode_morse s.current_morse_symbol]
       else s.decoded_message) := by
  unfold risingFlush
  split <;> simp_all

theorem endsWithSpace_risingFlush (s : DecoderState)
    (h : endsWithSpace s.decoded_message = false) :
    endsWithSpace (risingFlush s).decoded_message = false := by
  rw [risingFlush_message]
  split
  · simp only [endsWithSpace, List.getLast?_concat]
    simpa using decode_morse_ne_space s.current_morse_symbol
  · exact h

theorem hasDoubleSpace_risingFlush (s : DecoderState)
    (h : hasDoubleSpace s.decoded_message = false) :
    hasDoubleSpace (risingFlush s).decoded_message = false := by
  rw [risingFlush_message]
  split
  · exact hasDoubleSpace_append_decode _ _ h
  · exact h

theorem classifyOffDuration_eq_wordGap (d : ℚ) :
    classifyOffDuration d = GapKind.WordGap ↔ WORD_GAP_THRESHOLD_S ≤ d := by
  unfold classifyOffDuration
  split_ifs with h1 h2 <;> simp [h1]

theorem classifyOffDuration_eq_letterGap (d : ℚ) :
    classifyOffDuration d = GapKind.LetterGap ↔
      (LETTER_GAP_THRESHOLD_S ≤ d ∧ d < WORD_GAP_THRESHOLD_S) := by
  unfold classifyOffDuration
  split_ifs with h1 h2
  · constructor
    · intro h
      exact absurd h (by decide)
    · rintro ⟨-, hlt⟩
      exact absurd h1 (not_le.mpr hlt)
  · simp [h2, not_le.mp h1]
  · simp [h2]

theorem classifyOffDuration_eq_noGap (d : ℚ) :
    classifyOffDuration d = GapKind.NoGap ↔ d < LETTER_GAP_THRESHOLD_S := by
  unfold classifyOffDuration
  split_ifs with h1 h2
  · constructor
    · intro h
      exact absurd h (by decide)
    · intro h
      have hlw : LETTER_GAP_THRESHOLD_S ≤ WORD_GAP_THRESHOLD_S := by
        norm_num [LETTER_GAP_THRESHOLD_S, WORD_GAP_THRESHOLD_S]
      exact absurd (lt_of_le_of_lt (hlw.trans h1) h) (lt_irrefl _)
  · constructor
    · intro h
      exact absurd h (by decide)
    · intro h
      exact absurd h2 (not_le.mpr h)
  · simp [not_le.mp h2]

theorem classifyOnDuration_eq_dot (d : ℚ) :
    classifyOnDuration d = MorseElement.Dot ↔ d < DOT_DASH_THRESHOLD_S := by
  unfold classifyOnDuration
  split_ifs with h1 <;> simp [h1]

theorem classifyOnDuration_eq_dash (d : ℚ) :
    classifyOnDuration d = MorseElement.Dash ↔ DOT_DASH_THRESHOLD_S ≤ d := by
  unfold classifyOnDuration
  split_ifs with h1
  · simp [h1, not_le.mpr h1]
  · simp [not_lt.mp h1]

theorem allValid_risingFlush (s : DecoderState)
    (h : s.decoded_message.all validChar = true) :
    (risingFlush s).decoded_message.all validChar = true := by
  rw [risingFlush_message]
  split
  · simp [List.all_append, h, decode_morse_validChar]
  · exact h

theorem processSample_rising (s : DecoderState) (t : ℚ) (h0 : s.led_state = 0) :
    processSample t true s =
      { (if WORD_GAP_THRESHOLD_S ≤ t - s.last_state_change_time then
           (if endsWithSpace (risingFlush s).decoded_message then risingFlush s
            else { risingFlush s with
                   decoded_message := (risingFlush s).decoded_message ++ [' '] })
         else if LETTER_GAP_THRESHOLD_S ≤ t - s.last_state_change_time then risingFlush s
         else s) with
        led_state := 1, last_state_change_time := t } := by
  simp only [processSample, h0, if_true]

theorem processSample_falling (s : DecoderState) (t : ℚ) (h1 : s.led_state = 1) :
    processSample t false s =
      { s with
        current_morse_symbol :=
          s.current_morse_symbol ++
            [elementChar (classifyOnDuration (t - s.last_state_change_time))],
        led_state := 0, last_state_change_time := t } := by
  have h0 : ¬ s.led_state = 0 := by simp [h1]
  simp only [processSample, h0, h1, if_false, if_true, Bool.false_eq_true]
  by_cases hd : t - s.last_state_change_time < DOT_DASH_THRESHOLD_S
  · simp [hd, classifyOnDuration, elementChar]
  · simp [hd, classifyOnDuration, elementChar]

theorem validChar_space : validChar ' ' = true := by decide

theorem messageInv_processSample (t : ℚ) (a : Bool) (s : DecoderState)
    (h : messageInv s) : messageInv (processSample t a s) := by
  obtain ⟨hds, hvc⟩ := h
  have hf1 : hasDoubleSpace (risingFlush s).decoded_message = false :=
    hasDoubleSpace_risingFlush s hds
  have hf2 : (risingFlush s).decoded_message.all validChar = true :=
    allValid_risingFlush s hvc
  by_cases h0 : s.led_state = 0
  · cases a with
    | false =>
      simpa only [processSample, h0, if_true, Bool.false_eq_true, if_false] using
        And.intro hds hvc
    | true =>
      rw [processSample_rising s t h0]
      by_cases hw : WORD_GAP_THRESHOLD_S ≤ t - s.last_state_change_time
      · rw [if_pos hw]
        by_cases hsp : endsWithSpace (risingFlush s).decoded_message = true
        · rw [if_pos hsp]
          exact ⟨hf1, hf2⟩
        · rw [if_neg hsp]
          simp only [Bool.not_eq_true] at hsp
          refine ⟨?_, ?_⟩
          · show hasDoubleSpace ((risingFlush s).decoded_message ++ [' ']) = false
            rw [hasDoubleSpace_append_space, hf1, hsp]
            rfl
          · show ((risingFlush s).decoded_message ++ [' ']).all validChar = true
            simp [List.all_append, hf2, validChar_space]
      · rw [if_neg hw]
        by_cases hl : LETTER_GAP_THRESHOLD_S ≤ t - s.last_state_change_time
        · rw [if_pos hl]
          exact ⟨hf1, hf2⟩
        · rw [if_neg hl]
          exact ⟨hds, hvc⟩
  · by_cases h1 : s.led_state = 1
    · cases a with
      | true =>
        simpa only [processSample, h0, h1, if_true, if_false] using And.intro hds hvc
      | false =>
        rw [processSample_falling s t h1]
        exact ⟨hds, hvc⟩
    · simpa only [processSample, h0, h1, if_false] using And.intro hds hvc

theorem messageInv_watchdogTick (now : ℚ) (s : DecoderState)
    (h : messageInv s) : messageInv (watchdogTick now s) := by
  obtain ⟨hds, hvc⟩ := h
  unfold watchdogTick
  by_cases h0 : s.led_state = 0
  · rw [if_pos h0]
    by_cases hg : WORD_GAP_THRESHOLD_S < now - s.last_state_change_time
        ∧ ¬ endsWithSpace s.decoded_message
    · rw [if_pos hg]
      obtain ⟨-, hsp⟩ := hg
      simp only [Bool.not_eq_true] at hsp
      refine ⟨?_, ?_⟩
      · show hasDoubleSpace ((risingFlush s).decoded_message ++ [' ']) = false
        rw [hasDoubleSpace_append_space, hasDoubleSpace_risingFlush s hds,
          endsWithSpace_risingFlush s hsp]
        rfl
      · show ((risingFlush s).decoded_message ++ [' ']).all validChar = true
        simp [List.all_append, allValid_risingFlush s hvc, validChar_space]
    · rw [if_neg hg]
      exact ⟨hds, hvc⟩
  · rw [if_neg h0]
    exact ⟨hds, hvc⟩

theorem messageInv_resetDecoder (now : ℚ) (s : DecoderState) :
    messageInv (resetDecoder now s) := by
  exact ⟨rfl, rfl⟩

theorem messageInv_stepEvent (e : DecoderEvent) (s : DecoderState)
    (h : messageInv s) : messageInv (stepEvent e s) := by
  cases e with
  | sample t a => exact messageInv_processSample t a s h
  | tick now => exact messageInv_watchdogTick now s h
  | reset now => exact messageInv_resetDecoder now s

theorem messageInv_foldl (events : List DecoderEvent) (s : DecoderState)
    (h : messageInv s) :
    messageInv (events.foldl (fun s e => stepEvent e s) s) := by
  induction events generalizing s with
  | nil => exact h
  | cons e rest ih => exact ih _ (messageInv_stepEvent e s h)

theorem messageInv_run (events : List DecoderEvent) :
    messageInv (runEvents events) :=
  messageInv_foldl events initialState ⟨rfl, rfl⟩

theorem risingFlush_last (s : DecoderState) :
    (risingFlush s).last_state_change_time = s.last_state_change_time := by
  unfold risingFlush
  split <;> rfl

/-- C1: on a rising edge (state SignalOff, active sample), the off-duration
classification drives the buffers: WordGap flushes a non-empty buffer and
appends a space iff the flushed message does not already end with one,
LetterGap flushes with no space, NoGap leaves the buffers unchanged; in every
case the state becomes SignalOn and the transition time is restamped. -/
theorem C1_rising_edge (s : DecoderState) (t : ℚ) (h0 : s.led_state = 0) :
    (processSample t true s).led_state = 1 ∧
    (processSample t true s).last_state_change_time = t ∧
    (classifyOffDuration (t - s.last_state_change_time) = GapKind.WordGap →
      (processSample t true s).current_morse_symbol = [] ∧
      (processSample t true s).decoded_message =
        (if endsWithSpace (risingFlush s).decoded_message then
          (risingFlush s).decoded_message
         else (risingFlush s).decoded_message ++ [' '])) ∧
    (classifyOffDuration (t - s.last_state_change_time) = GapKind.LetterGap →
      (processSample t true s).current_morse_symbol = [] ∧
      (processSample t true s).decoded_message = (risingFlush s).decoded_message) ∧
    (classifyOffDuration (t - s.last_state_change_time) = GapKind.NoGap →
      (processSample t true s).current_morse_symbol = s.current_morse_symbol ∧
      (processSample t true s).decoded_message = s.decoded_message) := by
  rw [processSample_rising s t h0]
  refine ⟨rfl, rfl, ?_, ?_, ?_⟩
  · intro hg
    rw [classifyOffDuration_eq_wordGap] at hg
    rw [if_pos hg]
    constructor
    · split
      · exact risingFlush_symbol s
      · exact risingFlush_symbol s
    · split <;> rfl
  · intro hg
    rw [classifyOffDuration_eq_letterGap] at hg
    rw [if_neg (not_le.mpr hg.2), if_pos hg.1]
    exact ⟨risingFlush_symbol s, rfl⟩
  · intro hg
    rw [classifyOffDuration_eq_noGap] at hg
    have hlw : LETTER_GAP_THRESHOLD_S ≤ WORD_GAP_THRESHOLD_S := by
      norm_num [LETTER_GAP_THRESHOLD_S, WORD_GAP_THRESHOLD_S]
    have hw : ¬ WORD_GAP_THRESHOLD_S ≤ t - s.last_state_change_time := by
      intro hc
      exact absurd (lt_of_le_of_lt (hlw.trans hc) hg) (lt_irrefl _)
    rw [if_neg hw, if_neg (not_le.mpr hg)]
    exact ⟨rfl, rfl⟩

theorem C1_rising_edge_witness :
    (processSample 2 true ⟨0, ['.'], [], 0⟩).decoded_message = ['E', ' '] ∧
    (processSample 2 true ⟨0, ['.'], [], 0⟩).current_morse_symbol = [] ∧
    (processSample 2 true ⟨0, ['.'], [], 0⟩).led_state = 1 := by
  have h := C1_rising_edge ⟨0, ['.'], [], 0⟩ 2 rfl
  have hw := h.2.2.1 (by
    rw [classifyOffDuration_eq_wordGap]
    norm_num [WORD_GAP_THRESHOLD_S])
  refine ⟨?_, hw.1, h.1⟩
  rw [hw.2]
  decide

/-- C3: on a falling edge (state SignalOn, inactive sample) the on-duration
is classified with the boundary inclusive to Dash: strictly below the
boundary appends a dot to the symbol buffer, otherwise a dash; the state
becomes SignalOff, the transition time is restamped and the decoded message
is unchanged. -/
theorem C3_falling_edge (s : DecoderState) (t : ℚ) (h1 : s.led_state = 1) :
    (processSample t false s).led_state = 0 ∧
    (processSample t false s).last_state_change_time = t ∧
    (processSample t false s).decoded_message = s.decoded_message ∧
    (processSample t false s).current_morse_symbol =
      s.current_morse_symbol ++
        [elementChar (classifyOnDuration (t - s.last_state_change_time))] ∧
    (t - s.last_state_change_time < DOT_DASH_THRESHOLD_S →
      classifyOnDuration (t - s.last_state_change_time) = MorseElement.Dot) ∧
    (DOT_DASH_THRESHOLD_S ≤ t - s.last_state_change_time →
      classifyOnDuration (t - s.last_state_change_time) = MorseElement.Dash) := by
  rw [processSample_falling s t h1]
  refine ⟨rfl, rfl, rfl, rfl, ?_, ?_⟩
  · exact fun h => (classifyOnDuration_eq_dot _).mpr h
  · exact fun h => (classifyOnDuration_eq_dash _).mpr h

theorem C3_falling_edge_witness :
    (processSample (1/10) false ⟨1, [], [], 0⟩).current_morse_symbol = ['.'] ∧
    (processSample (2/5) false ⟨1, ['.'], ['E'], 0⟩).current_morse_symbol = ['.', '-'] ∧
    (processSample (2/5) false ⟨1, ['.'], ['E'], 0⟩).decoded_message = ['E'] := by
  have h1 := C3_falling_edge ⟨1, [], [], 0⟩ (1/10) rfl
  have h2 := C3_falling_edge ⟨1, ['.'], ['E'], 0⟩ (2/5) rfl
  have hdot := h1.2.2.2.2.1 (by norm_num [DOT_DASH_THRESHOLD_S])
  have hdash := h2.2.2.2.2.2 (by norm_num [DOT_DASH_THRESHOLD_S])
  refine ⟨?_, ?_, h2.2.2.1⟩
  · rw [h1.2.2.2.1, hdot]
    rfl
  · rw [h2.2.2.2.1, hdash]
    rfl

/-- C6: classifyOffDuration partitions the durations at exactly the letter
and word boundaries, each boundary value belonging to the higher category. -/
theorem C6_classifyOffDuration_partition (d : ℚ) :
    (d < LETTER_GAP_THRESHOLD_S → classifyOffDuration d = GapKind.NoGap) ∧
    (LETTER_GAP_THRESHOLD_S ≤ d → d < WORD_GAP_THRESHOLD_S →
      classifyOffDuration d = GapKind.LetterGap) ∧
    (WORD_GAP_THRESHOLD_S ≤ d → classifyOffDuration d = GapKind.WordGap) := by
  refine ⟨?_, ?_, ?_⟩
  · exact fun h => (classifyOffDuration_eq_noGap d).mpr h
  · exact fun h1 h2 => (classifyOffDuration_eq_letterGap d).mpr ⟨h1, h2⟩
  · exact fun h => (classifyOffDuration_eq_wordGap d).mpr h

theorem C6_classifyOffDuration_witness :
    classifyOffDuration (3/10) = GapKind.NoGap ∧
    classifyOffDuration (1/2) = GapKind.LetterGap ∧
    classifyOffDuration 1 = GapKind.WordGap :=
  ⟨(C6_classifyOffDuration_partition (3/10)).1
      (by norm_num [LETTER_GAP_THRESHOLD_S]),
   (C6_classifyOffDuration_partition (1/2)).2.1
      (by norm_num [LETTER_GAP_THRESHOLD_S]) (by norm_num [WORD_GAP_THRESHOLD_S]),
   (C6_classifyOffDuration_partition 1).2.2 (by norm_num [WORD_GAP_THRESHOLD_S])⟩

/-- C8: the reset command empties both buffers, restamps the transition time
with the current time, and leaves the SignalOff/SignalOn state value alone. -/
theorem C8_reset_frame (s : DecoderState) (now : ℚ) :
    (resetDecoder now s).current_morse_symbol = [] ∧
    (resetDecoder now s).decoded_message = [] ∧
    (resetDecoder now s).last_state_change_time = now ∧
    (resetDecoder now s).led_state = s.led_state :=
  ⟨rfl, rfl, rfl, rfl⟩

/-- C7: decode is total and deterministic, maps each of the 36 table
patterns to its character, and yields the placeholder on the empty or any
unmatched pattern. -/
theorem C7_decode_total :
    decode_morse [] = '#' ∧
    (∀ p : List Char, (∀ kv ∈ MORSE_TO_TEXT, kv.1 ≠ p) → decode_morse p = '#') ∧
    (∀ kv ∈ MORSE_TO_TEXT, decode_morse kv.1 = kv.2) := by
  refine ⟨rfl, ?_, by decide⟩
  intro p h
  unfold decode_morse
  rw [lookupMorse_eq_none h]
  rfl

theorem C7_decode_total_witness :
    decode_morse ['.', '.', '.', '.', '.', '.'] = '#' ∧
    decode_morse ['.', '.', '.', '.'] = 'H' :=
  ⟨C7_decode_total.2.1 ['.', '.', '.', '.', '.', '.'] (by decide),
   C7_decode_total.2.2 (['.', '.', '.', '.'], 'H') (by decide)⟩

/-- C4 counterexample: at an elapsed silence exactly equal to the word-gap
boundary, with a message not ending in a space, the watchdog does nothing,
refuting the claim that it fires whenever the elapsed silence is greater
than or equal to the boundary. -/
theorem C4_boundary_counterexample :
    initialState.led_state = 0 ∧
    WORD_GAP_THRESHOLD_S ≤ (1 : ℚ) - initialState.last_state_change_time ∧
    endsWithSpace initialState.decoded_message = false ∧
    watchdogTick 1 initialState = initialState := by
  refine ⟨rfl, ?_, rfl, ?_⟩
  · norm_num [initialState, WORD_GAP_THRESHOLD_S]
  · unfold watchdogTick
    rw [if_pos (show initialState.led_state = 0 from rfl)]
    rw [if_neg ?hg]
    case hg =>
      intro hc
      exact absurd hc.1 (by norm_num [initialState, WORD_GAP_THRESHOLD_S])

/-- C4 (amended): a watchdog tick taken in state SignalOff flushes and
appends a space exactly when the elapsed silence is STRICTLY greater than
the word-gap boundary and the message does not already end with a space,
and it never modifies the transition time. -/
theorem C4_watchdog_strict (s : DecoderState) (now : ℚ) (h0 : s.led_state = 0) :
    (watchdogTick now s).last_state_change_time = s.last_state_change_time ∧
    (WORD_GAP_THRESHOLD_S < now - s.last_state_change_time ∧
        endsWithSpace s.decoded_message = false →
      (watchdogTick now s).current_morse_symbol = [] ∧
      (watchdogTick now s).decoded_message =
        (risingFlush s).decoded_message ++ [' ']) ∧
    (¬ (WORD_GAP_THRESHOLD_S < now - s.last_state_change_time ∧
        endsWithSpace s.decoded_message = false) →
      watchdogTick now s = s) := by
  unfold watchdogTick
  rw [if_pos h0]
  by_cases hg : WORD_GAP_THRESHOLD_S < now - s.last_state_change_time
      ∧ ¬ endsWithSpace s.decoded_message
  · rw [if_pos hg]
    have hb : endsWithSpace s.decoded_message = false := by simpa using hg.2
    refine ⟨risingFlush_last s, ?_, ?_⟩
    · intro _
      exact ⟨risingFlush_symbol s, rfl⟩
    · intro hneg
      exact absurd ⟨hg.1, hb⟩ hneg
  · rw [if_neg hg]
    refine ⟨rfl, ?_, fun _ => rfl⟩
    intro hc
    exact absurd ⟨hc.1, by simp [hc.2]⟩ hg

theorem C4_watchdog_strict_witness :
    (watchdogTick (3/2) ⟨0, ['.'], [], 0⟩).decoded_message = ['E', ' '] ∧
    (watchdogTick (3/2) ⟨0, ['.'], [], 0⟩).current_morse_symbol = [] ∧
    (watchdogTick (3/2) ⟨0, ['.'], [], 0⟩).last_state_change_time = 0 := by
  have h := C4_watchdog_strict ⟨0, ['.'], [], 0⟩ (3/2) rfl
  have hf := h.2.1 ⟨by norm_num [WORD_GAP_THRESHOLD_S], rfl⟩
  refine ⟨?_, hf.1, h.1⟩
  rw [hf.2]
  decide

/-- C5 counterexample: with symbol buffer containing a single dot and an
empty message, finalize leaves the buffer uncleared, and a second finalize
appends the decoded character again, so the terminal results differ. -/
theorem C5_not_idempotent_counterexample :
    (⟨0, ['.'], [], 0⟩ : DecoderState).current_morse_symbol ≠ [] ∧
    (finalizeDecoder ⟨0, ['.'], [], 0⟩).current_morse_symbol = ['.'] ∧
    (finalizeDecoder (finalizeDecoder ⟨0, ['.'], [], 0⟩)).decoded_message = ['E', 'E'] ∧
    finalResult (finalizeDecoder ⟨0, ['.'], [], 0⟩) ≠ finalResult ⟨0, ['.'], [], 0⟩ := by
  refine ⟨?_, ?_, ?_, ?_⟩ <;> decide

/-- C5 (amended): finalize appends the decoded character of a non-empty
symbol buffer to the message but does not clear the buffer; the terminal
result is the message with surrounding spaces stripped; finalize is
idempotent only when the buffer is empty. -/
theorem C5_finalize_behavior (s : DecoderState) :
    (s.current_morse_symbol ≠ [] →
      (finalizeDecoder s).decoded_message =
        s.decoded_message ++ [decode_morse s.current_morse_symbol]) ∧
    (s.current_morse_symbol = [] → finalizeDecoder s = s) ∧
    (finalizeDecoder s).current_morse_symbol = s.current_morse_symbol ∧
    finalResult s = stripSpaces (finalizeDecoder s).decoded_message ∧
    (s.current_morse_symbol = [] →
      finalResult (finalizeDecoder s) = finalResult s) := by
  refine ⟨?_, ?_, ?_, rfl, ?_⟩
  · intro h
    unfold finalizeDecoder
    rw [if_pos h]
  · intro h
    unfold finalizeDecoder
    rw [if_neg (by simp [h])]
  · unfold finalizeDecoder
    split <;> rfl
  · intro h
    have he : finalizeDecoder s = s := by
      unfold finalizeDecoder
      rw [if_neg (by simp [h])]
    rw [he]

theorem C5_finalize_behavior_witness :
    (finalizeDecoder ⟨0, ['-'], ['A'], 0⟩).decoded_message = ['A', 'T'] ∧
    finalizeDecoder ⟨1, [], ['A', ' '], 0⟩ = ⟨1, [], ['A', ' '], 0⟩ := by
  have h1 := (C5_finalize_behavior ⟨0, ['-'], ['A'], 0⟩).1 (by decide)
  have h2 := (C5_finalize_behavior ⟨1, [], ['A', ' '], 0⟩).2.1 rfl
  refine ⟨?_, h2⟩
  rw [h1]
  decide

/-- C9: a sample whose timestamp does not exceed the last transition time
gives a zero-or-negative duration, which classifies into the lowest
category: Dot on a falling edge and NoGap (no flush, no space) on a rising
edge; processing is total and never fails. -/
theorem C9_nonpositive_duration (s : DecoderState) (t : ℚ)
    (h : t ≤ s.last_state_change_time) :
    classifyOnDuration (t - s.last_state_change_time) = MorseElement.Dot ∧
    classifyOffDuration (t - s.last_state_change_time) = GapKind.NoGap ∧
    (s.led_state = 1 →
      (processSample t false s).current_morse_symbol =
        s.current_morse_symbol ++ ['.']) ∧
    (s.led_state = 0 →
      (processSample t true s).current_morse_symbol = s.current_morse_symbol ∧
      (processSample t true s).decoded_message = s.decoded_message) := by
  have hdot : t - s.last_state_change_time < DOT_DASH_THRESHOLD_S := by
    have hpos : (0 : ℚ) < DOT_DASH_THRESHOLD_S := by norm_num [DOT_DASH_THRESHOLD_S]
    linarith
  have hng : t - s.last_state_change_time < LETTER_GAP_THRESHOLD_S := by
    have hpos : (0 : ℚ) < LETTER_GAP_THRESHOLD_S := by norm_num [LETTER_GAP_THRESHOLD_S]
    linarith
  have hnw : ¬ WORD_GAP_THRESHOLD_S ≤ t - s.last_state_change_time := by
    have hpos : (0 : ℚ) < WORD_GAP_THRESHOLD_S := by norm_num [WORD_GAP_THRESHOLD_S]
    intro hc
    linarith
  refine ⟨(classifyOnDuration_eq_dot _).mpr hdot,
    (classifyOffDuration_eq_noGap _).mpr hng, ?_, ?_⟩
  · intro h1
    rw [processSample_falling s t h1, (classifyOnDuration_eq_dot _).mpr hdot]
    rfl
  · intro h0
    rw [processSample_rising s t h0, if_neg hnw, if_neg (not_le.mpr hng)]
    exact ⟨rfl, rfl⟩

theorem C9_nonpositive_duration_witness :
    (processSample 5 false ⟨1, [], [], 5⟩).current_morse_symbol = ['.'] ∧
    (processSample 3 true ⟨0, ['.'], ['E'], 5⟩).decoded_message = ['E'] := by
  have h1 := C9_nonpositive_duration ⟨1, [], [], 5⟩ 5 (le_refl 5)
  have h2 := C9_nonpositive_duration ⟨0, ['.'], ['E'], 5⟩ 3 (by norm_num)
  refine ⟨?_, (h2.2.2.2 rfl).2⟩
  rw [h1.2.2.1 rfl]
  rfl

/-- C2: for every sequence of samples, watchdog ticks and reset commands
from the initial state, the decoded message never contains two consecutive
spaces. -/
theorem C2_no_consecutive_spaces (events : List DecoderEvent) :
    hasDoubleSpace (runEvents events).decoded_message = false :=
  (messageInv_run events).1

/-- C10: for every sequence of samples, watchdog ticks and reset commands
from the initial state, every character of the decoded message is an
uppercase letter, a digit, the placeholder, or a space. -/
theorem C10_message_charset (events : List DecoderEvent) :
    (runEvents events).decoded_message.all validChar = true :=
  (messageInv_run events).2
